import Mathlib

/-!
Verification development for the `exterminator_wizard` sprite utilities.

The repository holds two scripts:
* `gif2png/lg-gif2png.py` — a batch GIF-to-PNG converter that pastes each GIF
  onto a fresh 32×32 transparent RGBA canvas, rewrites exact-white pixels to
  transparent, and saves a sibling `.png` file;
* `utils/label-spritesheet.py` — a sprite-sheet labeler that upscales an image,
  partitions it into a tile grid, and draws a per-tile index label (plus
  optional hairline dividers) in a contrasting color.

The definitions below are a shallow embedding of those scripts.  Pixels are
tuples of naturals, images are dimension-carrying pixel functions, and the
drawing calls of the labeler are recorded as an explicit operation list (text
rendering and line rasterization are left abstract, as they are imaging-library
internals).  The labeler's CLI integers may be negative, so its parameters are
`Int` and Python's floor division `//` is embedded as `Int.fdiv`.  Python
errors (`ZeroDivisionError`, `UnboundLocalError`, `ValueError`) are embedded
with `Except`.

Python evaluates the luminance `0.299*r + 0.587*g + 0.114*b` in IEEE-754
double precision, which matters at the comparison boundary `< 128`.  The
double computation is modelled exactly: every value arising in it is a
multiple of 2⁻⁵⁶, so doubles are represented as naturals in units of 2⁻⁵⁶ and
each arithmetic step is followed by correct rounding to the enclosing binade
(round half to even), exactly as IEEE-754 prescribes.
-/

/-- Round `v` to the nearest multiple of `u`, ties to the even multiple.  This
is the IEEE-754 default rounding applied to a scaled integer. -/
def roundHalfEven (v u : ℕ) : ℕ :=
  if 2 * (v % u) < u then u * (v / u)
  else if u < 2 * (v % u) then u * (v / u + 1)
  else if (v / u) % 2 = 0 then u * (v / u) else u * (v / u + 1)

/-- Fuel-driven base-2 logarithm (floor), written structurally so that the
kernel can evaluate it on literals. -/
def log2fuel : ℕ → ℕ → ℕ
  | 0, _ => 0
  | f + 1, n => if 2 ≤ n then log2fuel f (n / 2) + 1 else 0

/-- Floor of log₂ of a natural number (`log2fuel` with enough fuel). -/
def log2p (n : ℕ) : ℕ := log2fuel n n

/-- Correct rounding of a value (in units of 2⁻⁵⁶) to an IEEE-754 double.
Values below 2⁵³ units are exactly representable in our value range; larger
values round to a multiple of the unit in the last place of their binade. -/
def fl (v : ℕ) : ℕ :=
  if v < 2 ^ 53 then v else roundHalfEven v (2 ^ (log2p v - 52))

/-- The IEEE-754 double nearest `0.299`, in units of 2⁻⁵⁶. -/
def d299U : ℕ := 21545220617340452

/-- The IEEE-754 double nearest `0.587`, in units of 2⁻⁵⁶. -/
def d587U : ℕ := 42297807700263696

/-- The IEEE-754 double nearest `0.114`, in units of 2⁻⁵⁶. -/
def d114U : ℕ := 8214565720323785

/-- An RGB color, as the labeler sees pixels after `convert("RGB")`. -/
abbrev RGB : Type := ℕ × ℕ × ℕ

/-- The double-precision value of `0.299 * color[0] + 0.587 * color[1] +
0.114 * color[2]` as Python evaluates it (left-associated additions, one
rounding per operation), in units of 2⁻⁵⁶. -/
def lumF (c : RGB) : ℕ :=
  fl (fl (fl (c.1 * d299U) + fl (c.2.1 * d587U)) + fl (c.2.2 * d114U))

/-- Embedding of `get_contrasting_color` from `utils/label-spritesheet.py`:
luminance below 128 (as computed in doubles) yields `"white"`, otherwise
`"black"`. -/
def get_contrasting_color (c : RGB) : String :=
  if lumF c < 128 * 2 ^ 56 then "white" else "black"

/-! ### Converter: `gif2png/lg-gif2png.py` -/

/-- An RGBA pixel value. -/
abbrev RGBA : Type := ℕ × ℕ × ℕ × ℕ

/-- A source image: dimensions plus a pixel function. -/
structure SrcImage where
  width : ℕ
  height : ℕ
  pix : ℕ → ℕ → RGBA

/-- The converter's output canvas: dimensions plus a pixel function. -/
structure OutImage where
  width : ℕ
  height : ℕ
  pix : ℕ → ℕ → RGBA

/-- The single-pixel rewrite of the converter's scan loop: exact white
`(255,255,255,255)` becomes `(255,255,255,0)`; every other value is kept. -/
def whiteToTransparent (p : RGBA) : RGBA :=
  if p = (255, 255, 255, 255) then (255, 255, 255, 0) else p

/-- The canvas after `sprite.paste(img, (0, 0))`: the source pixel where the
source covers the canvas, and the fresh canvas's transparent `(0,0,0,0)`
elsewhere (pixels of a too-large source beyond the canvas are dropped because
the canvas is only ever read on its own 32×32 domain). -/
def pasted (img : SrcImage) : ℕ → ℕ → RGBA := fun x y =>
  if x < img.width ∧ y < img.height then img.pix x y else (0, 0, 0, 0)

/-- One iteration of the converter's pixel loop: rewrite the pixel at `p` in
place and leave the rest of the buffer untouched. -/
def convStep (f : ℕ → ℕ → RGBA) (p : ℕ × ℕ) : ℕ → ℕ → RGBA := fun a b =>
  if a = p.1 ∧ b = p.2 then whiteToTransparent (f p.1 p.2) else f a b

/-- The coordinates visited by `for y in range(h): for x in range(w)`, in
visit order. -/
def scanCoords (w h : ℕ) : List (ℕ × ℕ) :=
  (List.range h).flatMap fun y => (List.range w).map fun x => (x, y)

/-- Embedding of the per-file body of `lg-gif2png.py`: allocate the 32×32
transparent canvas, paste the source at the origin, then run the white-pixel
rewrite loop over the whole canvas. -/
def convert (img : SrcImage) : OutImage :=
  ⟨32, 32, (scanCoords 32 32).foldl convStep (pasted img)⟩

/-- Python's `str.split(".")` on a character list: splits at every dot. -/
def splitDots : List Char → List (List Char)
  | [] => [[]]
  | c :: cs =>
    match splitDots cs with
    | [] => [[c]]
    | h :: t => if c = '.' then [] :: h :: t else (c :: h) :: t

/-- Embedding of the converter's output-path computation
`name, _ = filename.split(".")` followed by `name + ".png"`: the tuple
unpacking raises `ValueError` unless the split has exactly two parts. -/
def outputName (filename : List Char) : Except String (List Char) :=
  match splitDots filename with
  | [name, _ext] => Except.ok (name ++ ['.', 'p', 'n', 'g'])
  | _ => Except.error "ValueError"

/-- The converter's hardcoded source directory prefix. -/
def gifDir : List Char := "last-guardian-sprites/".toList

/-- A path is produced by the glob `last-guardian-sprites/*.gif` exactly when
it is the directory prefix followed by a nonempty basename stem (not starting
with a dot, since glob hides dotfiles, and containing no slash, since `*`
does not cross directories) followed by `.gif`. -/
def matchesGlob (f : List Char) : Prop :=
  ∃ base : List Char,
    base ≠ [] ∧ base.head? ≠ some '.' ∧ '/' ∉ base ∧
    f = gifDir ++ base ++ ['.', 'g', 'i', 'f']

/-! ### Labeler: `utils/label-spritesheet.py` -/

/-- The labeler's input image; pixel content is consulted only through the
imaging library's 1×1 downsample, which is abstracted separately. -/
structure SheetImage where
  width : ℕ
  height : ℕ

/-- The labeler's parameters, as parsed by `argparse` (all `type=int`, so
negative values are representable; `hairline` is a flag). -/
structure LabelArgs where
  tile_width : ℤ
  tile_height : ℤ
  scale : ℤ
  padding : ℤ
  offset_x : ℤ
  offset_y : ℤ
  hairline : Bool
  deriving DecidableEq

/-- One drawing call issued against the scaled sheet: a `draw.line` between
two points, or a `draw.text` of a tile index at a position.  Rasterization is
left to the imaging library; the operation list in issue order is the record
of everything drawn over the scaled image. -/
inductive DrawOp where
  | line : ℤ × ℤ → ℤ × ℤ → String → DrawOp
  | text : ℤ × ℤ → ℤ → String → DrawOp
  deriving DecidableEq

/-- The labeler's saved result: the scaled sheet dimensions and the drawing
calls applied over the scaled-but-unlabeled image, in order. -/
structure LabelOutput where
  width : ℤ
  height : ℤ
  ops : List DrawOp
  deriving DecidableEq

/-- Horizontal position of a tile: `x = col * (tile_width + padding) * scale +
offset_x` (line 49 of the labeler). -/
def tileX (a : LabelArgs) (col : ℤ) : ℤ :=
  col * (a.tile_width + a.padding) * a.scale + a.offset_x

/-- Vertical position of a tile: `y = row * (tile_height + padding) * scale +
offset_y` (line 50 of the labeler). -/
def tileY (a : LabelArgs) (row : ℤ) : ℤ :=
  row * (a.tile_height + a.padding) * a.scale + a.offset_y

/-- The contrasting color computed for the tile at `(row, col)`, where `avg`
abstracts the library's 1×1 downsample (`tile.resize((1,1)).getpixel((0,0))`)
of the crop at a tile position. -/
def tileColor (a : LabelArgs) (avg : ℤ → ℤ → RGB) (row col : ℤ) : String :=
  get_contrasting_color (avg (tileX a col) (tileY a row))

/-- The drawing calls issued while processing the tile at `(row, col)`: the
two hairline dividers (left edge and top edge) when the flag is set, then the
index label `row * cols + col` at inset `(5*scale, 5*scale)`. -/
def tileOps (a : LabelArgs) (sw sh cols : ℤ) (avg : ℤ → ℤ → RGB) (row col : ℤ) :
    List DrawOp :=
  (if a.hairline then
    [DrawOp.line (tileX a col, a.offset_y) (tileX a col, sh - a.offset_y)
       (tileColor a avg row col),
     DrawOp.line (a.offset_x, tileY a row) (sw - a.offset_x, tileY a row)
       (tileColor a avg row col)]
   else [])
  ++ [DrawOp.text (tileX a col + 5 * a.scale, tileY a row + 5 * a.scale)
        (row * cols + col) (tileColor a avg row col)]

/-- The row-major tile visit order of `for row in range(rows): for col in
range(cols)`. -/
def gridCoords (rows cols : ℕ) : List (ℕ × ℕ) :=
  (List.range rows).flatMap fun row => (List.range cols).map fun col => (row, col)

/-- One iteration of the tile loop: append the tile's drawing calls and record
its contrasting color as the latest value of the `contrasting_color`
variable. -/
def loopStep (a : LabelArgs) (sw sh cols : ℤ) (avg : ℤ → ℤ → RGB)
    (st : List DrawOp × Option String) (rc : ℕ × ℕ) :
    List DrawOp × Option String :=
  (st.1 ++ tileOps a sw sh cols avg (rc.1 : ℤ) (rc.2 : ℤ),
   some (tileColor a avg (rc.1 : ℤ) (rc.2 : ℤ)))

/-- Grid width: `cols = (scaled_width - 2 * offset_x) // ((tile_width +
padding) * scale)` with Python's floor division. -/
def colsOf (img : SheetImage) (a : LabelArgs) : ℤ :=
  Int.fdiv ((img.width : ℤ) * a.scale - 2 * a.offset_x)
    ((a.tile_width + a.padding) * a.scale)

/-- Grid height: `rows = (scaled_height - 2 * offset_y) // ((tile_height +
padding) * scale)` with Python's floor division. -/
def rowsOf (img : SheetImage) (a : LabelArgs) : ℤ :=
  Int.fdiv ((img.height : ℤ) * a.scale - 2 * a.offset_y)
    ((a.tile_height + a.padding) * a.scale)

/-- Embedding of `label_sprite_sheet`, following the failure order of the
script.  Line 37's library resize to `(width*scale, height*scale)` rejects a
non-positive target size (Pillow raises `ValueError`, "height and width must
be > 0") before anything else.  Then line 43's `cols` division raises
`ZeroDivisionError` when its divisor `(tile_width + padding) * scale` is
zero, and line 44's `rows` division does the same for its own divisor
`(tile_height + padding) * scale`.  After the tile loop, the trailing
hairline pass reads the loop-local `contrasting_color` variable, which is
unbound when no tile was processed: Python then raises `UnboundLocalError`.
In every error case nothing is drawn or saved. -/
def label_sprite_sheet (img : SheetImage) (a : LabelArgs) (avg : ℤ → ℤ → RGB) :
    Except String LabelOutput :=
  let sw : ℤ := (img.width : ℤ) * a.scale
  let sh : ℤ := (img.height : ℤ) * a.scale
  if sw ≤ 0 ∨ sh ≤ 0 then
    Except.error "ValueError"
  else if (a.tile_width + a.padding) * a.scale = 0 then
    Except.error "ZeroDivisionError"
  else if (a.tile_height + a.padding) * a.scale = 0 then
    Except.error "ZeroDivisionError"
  else
    let cols := colsOf img a
    let rows := rowsOf img a
    let st := (gridCoords rows.toNat cols.toNat).foldl
      (loopStep a sw sh cols avg) ([], none)
    if a.hairline then
      match st.2 with
      | none => Except.error "UnboundLocalError"
      | some c =>
        Except.ok ⟨sw, sh, st.1 ++
          [DrawOp.line (sw - a.offset_x, a.offset_y) (sw - a.offset_x, sh - a.offset_y) c,
           DrawOp.line (a.offset_x, sh - a.offset_y) (sw - a.offset_x, sh - a.offset_y) c]⟩
    else
      Except.ok ⟨sw, sh, st.1⟩

/-- The indices drawn by `draw.text`, in issue order. -/
def textIndices : List DrawOp → List ℤ
  | [] => []
  | DrawOp.text _ i _ :: rest => i :: textIndices rest
  | DrawOp.line _ _ _ :: rest => textIndices rest

/-- A constant average-color oracle (an all-black sheet), used for concrete
runs. -/
def avg0 : ℤ → ℤ → RGB := fun _ _ => (0, 0, 0)

/-- The drawing calls of the full tile loop of a run, in row-major issue
order (an abbreviation for the flattened loop body, used to state what a run
draws). -/
def gridOps (img : SheetImage) (a : LabelArgs) (avg : ℤ → ℤ → RGB) : List DrawOp :=
  (gridCoords (rowsOf img a).toNat (colsOf img a).toNat).flatMap fun rc =>
    tileOps a ((img.width : ℤ) * a.scale) ((img.height : ℤ) * a.scale)
      (colsOf img a) avg (rc.1 : ℤ) (rc.2 : ℤ)

/-- The sixteen labels drawn on a 64×64 sheet at `tile 16×16, scale 2`:
indices 0–15 in row-major order at inset `(10, 10)` within each 32×32 output
tile, all white over the all-black oracle. -/
def c2ops : List DrawOp :=
  [DrawOp.text (10, 10) 0 "white", DrawOp.text (42, 10) 1 "white",
   DrawOp.text (74, 10) 2 "white", DrawOp.text (106, 10) 3 "white",
   DrawOp.text (10, 42) 4 "white", DrawOp.text (42, 42) 5 "white",
   DrawOp.text (74, 42) 6 "white", DrawOp.text (106, 42) 7 "white",
   DrawOp.text (10, 74) 8 "white", DrawOp.text (42, 74) 9 "white",
   DrawOp.text (74, 74) 10 "white", DrawOp.text (106, 74) 11 "white",
   DrawOp.text (10, 106) 12 "white", DrawOp.text (42, 106) 13 "white",
   DrawOp.text (74, 106) 14 "white", DrawOp.text (106, 106) 15 "white"]

/-- A concrete all-white 2×2 source for the C1 witness. -/
def imgAllWhite : SrcImage := ⟨2, 2, fun _ _ => (255, 255, 255, 255)⟩

/-- A concrete 5×5 source, smaller than the canvas, for the C5 witness. -/
def imgSmall : SrcImage := ⟨5, 5, fun _ _ => (1, 2, 3, 4)⟩

/-! ### Bounds for the double-precision rounding model -/

/-- Rounding to a multiple of `u` moves a value by at most `u` upward. -/
lemma roundHalfEven_le (v u : ℕ) : roundHalfEven v u ≤ v + u := by
  have h1 : u * (v / u) + v % u = v := Nat.div_add_mod v u
  unfold roundHalfEven
  simp only [Nat.mul_succ]
  split_ifs <;> omega

/-- Rounding to a multiple of `u` moves a value by at most `u` downward. -/
lemma le_roundHalfEven (v u : ℕ) (hu : 0 < u) : v ≤ roundHalfEven v u + u := by
  have h1 : u * (v / u) + v % u = v := Nat.div_add_mod v u
  have h2 : v % u < u := Nat.mod_lt v hu
  unfold roundHalfEven
  simp only [Nat.mul_succ]
  split_ifs <;> omega

/-- With enough fuel, `log2fuel` yields a true lower-bound exponent. -/
lemma log2fuel_le (f : ℕ) : ∀ n, 1 ≤ n → n ≤ f → 2 ^ log2fuel f n ≤ n := by
  induction f with
  | zero => intro n h1 h2; omega
  | succ f ih =>
    intro n h1 h2
    unfold log2fuel
    split_ifs with h
    · have h3 := ih (n / 2) (by omega) (by omega)
      calc 2 ^ (log2fuel f (n / 2) + 1) = 2 * 2 ^ log2fuel f (n / 2) := by ring
        _ ≤ n := by omega
    · simpa using h1

/-- Lower-bound exponent for `log2p`. -/
lemma log2p_le (n : ℕ) (h : 1 ≤ n) : 2 ^ log2p n ≤ n :=
  log2fuel_le n n h le_rfl

/-- Each rounding step in our value range (below 2⁶⁵ units, i.e. below 2⁹)
moves a value by at most 2¹² units, a full unit in the last place. -/
lemma fl_err (v : ℕ) (hv : v < 2 ^ 65) : fl v ≤ v + 2 ^ 12 ∧ v ≤ fl v + 2 ^ 12 := by
  unfold fl
  split_ifs with h
  · omega
  · have h1 : 1 ≤ v := by omega
    have h2 : 2 ^ log2p v ≤ v := log2p_le v h1
    have h3 : log2p v ≤ 64 := by
      by_contra hc
      push_neg at hc
      have h4 : (2 : ℕ) ^ 65 ≤ 2 ^ log2p v := Nat.pow_le_pow_right (by omega) (by omega)
      omega
    have h4 : 2 ^ (log2p v - 52) ≤ 2 ^ 12 := Nat.pow_le_pow_right (by omega) (by omega)
    have h5 : 0 < 2 ^ (log2p v - 52) := Nat.pos_pow_of_pos _ (by omega)
    have h6 := roundHalfEven_le v (2 ^ (log2p v - 52))
    have h7 := le_roundHalfEven v (2 ^ (log2p v - 52)) h5
    omega

/-- The double-precision luminance, scaled by 1000, tracks the exact integer
luminance `299r + 587g + 114b` (scaled by 2⁵⁶) to within 22 000 000 units of
2⁻⁵⁶ — an absolute error below 2⁻³¹, minuscule against the 0.001 gap between
distinct exact luminances. -/
lemma lumF_approx (r g b : ℕ) (hr : r ≤ 255) (hg : g ≤ 255) (hb : b ≤ 255) :
    1000 * lumF (r, g, b) ≤ (299 * r + 587 * g + 114 * b) * 2 ^ 56 + 22000000 ∧
    (299 * r + 587 * g + 114 * b) * 2 ^ 56 ≤ 1000 * lumF (r, g, b) + 22000000 := by
  have hb1 : r * d299U ≤ 255 * d299U := Nat.mul_le_mul_right _ hr
  have hb2 : g * d587U ≤ 255 * d587U := Nat.mul_le_mul_right _ hg
  have hb3 : b * d114U ≤ 255 * d114U := Nat.mul_le_mul_right _ hb
  have hd1 : 255 * d299U < 2 ^ 63 := by norm_num [d299U]
  have hd2 : 255 * d587U < 2 ^ 64 := by norm_num [d587U]
  have hd3 : 255 * d114U < 2 ^ 61 := by norm_num [d114U]
  have e1 := fl_err (r * d299U) (by omega)
  have e2 := fl_err (g * d587U) (by omega)
  have e3 := fl_err (b * d114U) (by omega)
  have e4 := fl_err (fl (r * d299U) + fl (g * d587U)) (by omega)
  have e5 := fl_err (fl (fl (r * d299U) + fl (g * d587U)) + fl (b * d114U)) (by omega)
  have m1 : 1000 * (r * d299U) + 864 * r = 299 * 2 ^ 56 * r := by
    have hc : 1000 * d299U + 864 = 299 * 2 ^ 56 := by norm_num [d299U]
    calc 1000 * (r * d299U) + 864 * r = (1000 * d299U + 864) * r := by ring
      _ = 299 * 2 ^ 56 * r := by rw [hc]
  have m2 : 1000 * (g * d587U) + 2432 * g = 587 * 2 ^ 56 * g := by
    have hc : 1000 * d587U + 2432 = 587 * 2 ^ 56 := by norm_num [d587U]
    calc 1000 * (g * d587U) + 2432 * g = (1000 * d587U + 2432) * g := by ring
      _ = 587 * 2 ^ 56 * g := by rw [hc]
  have m3 : 1000 * (b * d114U) = 114 * 2 ^ 56 * b + 296 * b := by
    have hc : 1000 * d114U = 114 * 2 ^ 56 + 296 := by norm_num [d114U]
    calc 1000 * (b * d114U) = (114 * 2 ^ 56 + 296) * b := by rw [← hc]; ring
      _ = 114 * 2 ^ 56 * b + 296 * b := by ring
  simp only [lumF]
  omega

/-- The double-precision comparison agrees with the exact comparison whenever
the exact luminance is not exactly 128. -/
lemma lumF_lt_iff (r g b : ℕ) (hr : r ≤ 255) (hg : g ≤ 255) (hb : b ≤ 255)
    (hS : 299 * r + 587 * g + 114 * b ≠ 128000) :
    (lumF (r, g, b) < 128 * 2 ^ 56 ↔ 299 * r + 587 * g + 114 * b < 128000) := by
  have happ := lumF_approx r g b hr hg hb
  constructor
  · intro h
    by_contra hc
    push_neg at hc
    omega
  · intro h
    omega

/-- C3 counterexample: the color `(128,128,128)` has exact luminance
`0.299·128 + 0.587·128 + 0.114·128 = 128` exactly, yet the code returns
`"white"`, not `"black"`: Python evaluates the sum in double precision as
`127.99999999999999 < 128`.  This falsifies both the claimed iff (the
luminance is not `< 128` here) and the claimed boundary behavior. -/
theorem contrast_boundary_cex :
    299 * 128 + 587 * 128 + 114 * 128 = 128000 ∧
    get_contrasting_color (128, 128, 128) = "white" ∧
    get_contrasting_color (128, 128, 128) ≠ "black" := by
  refine ⟨by norm_num, by decide, by decide⟩

/-- C3 (amended): for every 8-bit RGB color whose exact luminance
`0.299R + 0.587G + 0.114B` is not exactly 128, the contrasting-color function
returns white iff that luminance is strictly less than 128 and black
otherwise; `(0,0,0)` yields white and `(255,255,255)` yields black.  At
luminance exactly 128 the floating-point evaluation decides the comparison,
and in particular `(128,128,128)` yields white, not black. -/
theorem contrast_color_amended (r g b : ℕ) (hr : r ≤ 255) (hg : g ≤ 255)
    (hb : b ≤ 255) (hS : 299 * r + 587 * g + 114 * b ≠ 128000) :
    (get_contrasting_color (r, g, b) = "white" ↔
      299 * r + 587 * g + 114 * b < 128000) ∧
    (get_contrasting_color (r, g, b) = "black" ↔
      ¬(299 * r + 587 * g + 114 * b < 128000)) ∧
    get_contrasting_color (0, 0, 0) = "white" ∧
    get_contrasting_color (255, 255, 255) = "black" ∧
    get_contrasting_color (128, 128, 128) = "white" := by
  have key := lumF_lt_iff r g b hr hg hb hS
  refine ⟨?_, ?_, by decide, by decide, by decide⟩
  · unfold get_contrasting_color
    split_ifs with hL
    · exact ⟨fun _ => key.mp hL, fun _ => rfl⟩
    · exact ⟨fun hcontra => absurd hcontra (by decide),
        fun hSlt => absurd (key.mpr hSlt) hL⟩
  · unfold get_contrasting_color
    split_ifs with hL
    · exact ⟨fun hcontra => absurd hcontra.symm (by decide),
        fun hn => absurd (key.mp hL) hn⟩
    · exact ⟨fun _ hSlt => hL (key.mpr hSlt), fun _ => rfl⟩

/-- Witness for `contrast_color_amended` at the concrete color `(64,64,64)`
(exact luminance 64). -/
theorem contrast_color_amended_witness :
    (get_contrasting_color (64, 64, 64) = "white" ↔
      299 * 64 + 587 * 64 + 114 * 64 < 128000) ∧
    (get_contrasting_color (64, 64, 64) = "black" ↔
      ¬(299 * 64 + 587 * 64 + 114 * 64 < 128000)) ∧
    get_contrasting_color (0, 0, 0) = "white" ∧
    get_contrasting_color (255, 255, 255) = "black" ∧
    get_contrasting_color (128, 128, 128) = "white" :=
  contrast_color_amended 64 64 64 (by norm_num) (by norm_num) (by norm_num)
    (by norm_num)

/-! ### The converter's pixel loop -/

/-- Folding the rewrite step over one scan row `y` rewrites exactly the pixels
of that row, each from its original value. -/
lemma convRow_eval (y n : ℕ) (f : ℕ → ℕ → RGBA) :
    ∀ a b : ℕ, (((List.range n).map fun x => (x, y)).foldl convStep f) a b =
      if a < n ∧ b = y then whiteToTransparent (f a b) else f a b := by
  induction n with
  | zero =>
    intro a b
    simp
  | succ n ih =>
    intro a b
    rw [List.range_succ, List.map_append, List.foldl_append]
    simp only [List.map_cons, List.map_nil, List.foldl_cons, List.foldl_nil]
    simp only [convStep]
    by_cases hab : a = n ∧ b = y
    · obtain ⟨ha, hb⟩ := hab
      subst ha
      subst hb
      rw [if_pos ⟨rfl, rfl⟩, ih]
      simp
    · rw [if_neg hab, ih]
      split_ifs <;> first | rfl | (exfalso; omega)

/-- Folding the rewrite step over the whole scan rewrites every pixel of the
`n × m` region, each from its original value (each coordinate is visited
exactly once, so the in-place update equals the pointwise map). -/
lemma convGrid_eval (m n : ℕ) (f : ℕ → ℕ → RGBA) :
    ∀ a b : ℕ, ((scanCoords n m).foldl convStep f) a b =
      if a < n ∧ b < m then whiteToTransparent (f a b) else f a b := by
  induction m with
  | zero =>
    intro a b
    simp [scanCoords]
  | succ m ih =>
    intro a b
    have hsplit : scanCoords n (m + 1) =
        scanCoords n m ++ ((List.range n).map fun x => (x, m)) := by
      unfold scanCoords
      rw [List.range_succ, List.flatMap_append]
      simp
    rw [hsplit, List.foldl_append, convRow_eval]
    simp only [ih]
    split_ifs <;> first | rfl | (exfalso; omega)

/-- On the canvas, the converted pixel is the white-to-transparent rewrite of
the pasted pixel. -/
lemma convert_pix (img : SrcImage) (x y : ℕ) (hx : x < 32) (hy : y < 32) :
    (convert img).pix x y = whiteToTransparent (pasted img x y) := by
  have e : (convert img).pix x y = ((scanCoords 32 32).foldl convStep (pasted img)) x y := by
    simp only [convert]
  rw [e, convGrid_eval, if_pos ⟨hx, hy⟩]

/-- C1: on the 32×32 canvas, a pixel whose pasted RGBA value is exactly
`(255,255,255,255)` is rewritten to `(255,255,255,0)`; every other pixel is
left unchanged; and in all cases the three RGB channels are preserved (only
the alpha channel ever changes). -/
theorem converter_white_pixel_rewrite (img : SrcImage) (x y : ℕ)
    (hx : x < 32) (hy : y < 32) :
    (pasted img x y = (255, 255, 255, 255) →
      (convert img).pix x y = (255, 255, 255, 0)) ∧
    (pasted img x y ≠ (255, 255, 255, 255) →
      (convert img).pix x y = pasted img x y) ∧
    ((convert img).pix x y).1 = (pasted img x y).1 ∧
    ((convert img).pix x y).2.1 = (pasted img x y).2.1 ∧
    ((convert img).pix x y).2.2.1 = (pasted img x y).2.2.1 := by
  have h := convert_pix img x y hx hy
  refine ⟨fun hw => ?_, fun hw => ?_, ?_, ?_, ?_⟩
  · rw [h, whiteToTransparent, if_pos hw]
  · rw [h, whiteToTransparent, if_neg hw]
  all_goals (rw [h, whiteToTransparent]; split_ifs with hw)
  all_goals (first | rfl | (rw [hw]))

/-- Witness for `converter_white_pixel_rewrite` at pixel `(0,0)` of a concrete
all-white source. -/
theorem converter_white_pixel_rewrite_witness :
    (pasted imgAllWhite 0 0 = (255, 255, 255, 255) →
      (convert imgAllWhite).pix 0 0 = (255, 255, 255, 0)) ∧
    (pasted imgAllWhite 0 0 ≠ (255, 255, 255, 255) →
      (convert imgAllWhite).pix 0 0 = pasted imgAllWhite 0 0) ∧
    ((convert imgAllWhite).pix 0 0).1 = (pasted imgAllWhite 0 0).1 ∧
    ((convert imgAllWhite).pix 0 0).2.1 = (pasted imgAllWhite 0 0).2.1 ∧
    ((convert imgAllWhite).pix 0 0).2.2.1 = (pasted imgAllWhite 0 0).2.2.1 :=
  converter_white_pixel_rewrite imgAllWhite 0 0 (by norm_num) (by norm_num)

/-- C5: the converter's output is always exactly 32×32; canvas pixels covered
by the source carry the (rewritten) source pixel, and canvas pixels beyond a
smaller source stay fully transparent. -/
theorem converter_canvas_32 (img : SrcImage) (x y : ℕ) (hx : x < 32)
    (hy : y < 32) :
    (convert img).width = 32 ∧ (convert img).height = 32 ∧
    (x < img.width ∧ y < img.height →
      (convert img).pix x y = whiteToTransparent (img.pix x y)) ∧
    (¬(x < img.width ∧ y < img.height) → (convert img).pix x y = (0, 0, 0, 0)) := by
  refine ⟨rfl, rfl, fun hin => ?_, fun hout => ?_⟩
  · rw [convert_pix img x y hx hy]
    unfold pasted
    rw [if_pos hin]
  · rw [convert_pix img x y hx hy]
    unfold pasted
    rw [if_neg hout]
    rfl

/-- Witness for `converter_canvas_32` at pixel `(4,4)` of a concrete 5×5
source. -/
theorem converter_canvas_32_witness :
    (convert imgSmall).width = 32 ∧ (convert imgSmall).height = 32 ∧
    (4 < imgSmall.width ∧ 4 < imgSmall.height →
      (convert imgSmall).pix 4 4 = whiteToTransparent (imgSmall.pix 4 4)) ∧
    (¬(4 < imgSmall.width ∧ 4 < imgSmall.height) →
      (convert imgSmall).pix 4 4 = (0, 0, 0, 0)) :=
  converter_canvas_32 imgSmall 4 4 (by norm_num) (by norm_num)

/-! ### The converter's output naming -/

/-- The split of a character list is never empty. -/
lemma splitDots_ne_nil (l : List Char) : splitDots l ≠ [] := by
  cases l with
  | nil => simp [splitDots]
  | cons c cs =>
    unfold splitDots
    cases h : splitDots cs with
    | nil => simp
    | cons hd tl => split_ifs <;> simp

/-- Unfolding equation for `splitDots` on a cons cell. -/
lemma splitDots_cons (c : Char) (cs : List Char) :
    splitDots (c :: cs) = match splitDots cs with
      | [] => [[c]]
      | h :: t => if c = '.' then [] :: h :: t else (c :: h) :: t := rfl

/-- A dot-free character list splits into just itself. -/
lemma splitDots_no_dot (l : List Char) (h : '.' ∉ l) : splitDots l = [l] := by
  induction l with
  | nil => rfl
  | cons c cs ih =>
    have hc : c ≠ '.' := fun hh => h (hh ▸ List.mem_cons_self c cs)
    have hcs : '.' ∉ cs := fun hm => h (List.mem_cons_of_mem _ hm)
    rw [splitDots_cons, ih hcs]
    simp [hc]

/-- Splitting at the first dot peels off the dot-free prefix. -/
lemma splitDots_prefix (l₁ l₂ : List Char) (h : '.' ∉ l₁) :
    splitDots (l₁ ++ '.' :: l₂) = l₁ :: splitDots l₂ := by
  induction l₁ with
  | nil =>
    simp only [List.nil_append]
    rw [splitDots_cons]
    cases h2 : splitDots l₂ with
    | nil => exact absurd h2 (splitDots_ne_nil l₂)
    | cons hd tl => simp
  | cons c cs ih =>
    have hc : c ≠ '.' := fun hh => h (hh ▸ List.mem_cons_self c cs)
    have hcs : '.' ∉ cs := fun hm => h (List.mem_cons_of_mem _ hm)
    show splitDots (c :: (cs ++ '.' :: l₂)) = (c :: cs) :: splitDots l₂
    rw [splitDots_cons, ih hcs]
    simp [hc]

/-- C6 counterexample: the path `last-guardian-sprites/a.b.gif` is matched by
the glob (the `*` wildcard matches `a.b`), yet `filename.split(".")` yields
three parts there, so the two-variable tuple unpacking raises `ValueError`
and no PNG is produced for that file. -/
theorem converter_naming_cex :
    matchesGlob ("last-guardian-sprites/a.b.gif".toList) ∧
    outputName ("last-guardian-sprites/a.b.gif".toList) =
      Except.error "ValueError" := by
  constructor
  · exact ⟨"a.b".toList, by decide, by decide, by decide, by decide⟩
  · rfl

/-- C6 (amended): for every matched GIF whose basename stem contains no
further dot, the converter writes the sibling path with `.gif` replaced by
`.png`; stems containing an extra dot instead crash the tuple unpacking. -/
theorem converter_naming_amended (base : List Char) (hdot : '.' ∉ base) :
    outputName (gifDir ++ base ++ ['.', 'g', 'i', 'f']) =
      Except.ok (gifDir ++ base ++ ['.', 'p', 'n', 'g']) := by
  have hnd : '.' ∉ gifDir ++ base := by
    intro hm
    rcases List.mem_append.mp hm with h1 | h2
    · revert h1
      decide
    · exact hdot h2
  have hsplit := splitDots_prefix (gifDir ++ base) ['g', 'i', 'f'] hnd
  unfold outputName
  rw [hsplit, splitDots_no_dot ['g', 'i', 'f'] (by decide)]

/-- Witness for `converter_naming_amended` at the concrete stem `abc`. -/
theorem converter_naming_amended_witness :
    outputName (gifDir ++ ['a', 'b', 'c'] ++ ['.', 'g', 'i', 'f']) =
      Except.ok (gifDir ++ ['a', 'b', 'c'] ++ ['.', 'p', 'n', 'g']) :=
  converter_naming_amended ['a', 'b', 'c'] (by decide)


/-! ### The labeler's tile loop -/

/-- The first component of the tile-loop fold accumulates the per-tile
drawing calls of every visited tile, in visit order. -/
lemma foldl_loopStep_fst (a : LabelArgs) (sw sh cols : ℤ) (avg : ℤ → ℤ → RGB) :
    ∀ (l : List (ℕ × ℕ)) (st : List DrawOp × Option String),
      (l.foldl (loopStep a sw sh cols avg) st).1 =
        st.1 ++ l.flatMap fun rc => tileOps a sw sh cols avg (rc.1 : ℤ) (rc.2 : ℤ) := by
  intro l
  induction l with
  | nil => intro st; simp
  | cons rc l ih =>
    intro st
    simp only [List.foldl_cons, List.flatMap_cons]
    rw [ih]
    simp [loopStep]

/-- The second component of the tile-loop fold is the contrasting color of
the last visited tile, or the untouched initial value when no tile was
visited. -/
lemma foldl_loopStep_snd (a : LabelArgs) (sw sh cols : ℤ) (avg : ℤ → ℤ → RGB) :
    ∀ (l : List (ℕ × ℕ)) (st : List DrawOp × Option String),
      (l.foldl (loopStep a sw sh cols avg) st).2 =
        (l.getLast?).elim st.2 fun rc => some (tileColor a avg (rc.1 : ℤ) (rc.2 : ℤ)) := by
  intro l
  induction l with
  | nil => intro st; simp
  | cons rc l ih =>
    intro st
    cases l with
    | nil => simp [loopStep]
    | cons rc2 l2 =>
      rw [List.foldl_cons, ih (loopStep a sw sh cols avg st rc),
        List.getLast?_cons_cons]
      cases h2 : (rc2 :: l2).getLast? with
      | none => exact absurd h2 (by simp)
      | some p => simp

/-- A grid with zero columns has no tiles. -/
lemma gridCoords_zero_cols (r : ℕ) : gridCoords r 0 = [] := by
  simp [gridCoords]

/-- Peeling the last visited row off the grid. -/
lemma gridCoords_succ (r c : ℕ) :
    gridCoords (r + 1) c = gridCoords r c ++ (List.range c).map fun col => (r, col) := by
  unfold gridCoords
  rw [List.range_succ, List.flatMap_append]
  simp

/-- The last visited tile of a nonempty grid is `(rows-1, cols-1)`. -/
lemma gridCoords_getLast (r c : ℕ) :
    (gridCoords (r + 1) (c + 1)).getLast? = some (r, c) := by
  rw [gridCoords_succ, List.range_succ, List.map_append]
  simp only [List.map_cons, List.map_nil]
  rw [← List.append_assoc]
  exact List.getLast?_concat _

/-- Characterization of a labeler run whose resize target is positive and
whose two grid divisors are nonzero: the run draws the tile loop's calls,
then — in hairline mode — either crashes on the unbound `contrasting_color`
(empty grid) or appends the two closing lines in the last visited tile's
color. -/
lemma label_spec (img : SheetImage) (a : LabelArgs) (avg : ℤ → ℤ → RGB)
    (hsw : 0 < (img.width : ℤ) * a.scale) (hsh : 0 < (img.height : ℤ) * a.scale)
    (hd1 : (a.tile_width + a.padding) * a.scale ≠ 0)
    (hd2 : (a.tile_height + a.padding) * a.scale ≠ 0) :
    label_sprite_sheet img a avg =
      if a.hairline then
        match (gridCoords (rowsOf img a).toNat (colsOf img a).toNat).getLast? with
        | none => Except.error "UnboundLocalError"
        | some rc =>
          Except.ok ⟨(img.width : ℤ) * a.scale, (img.height : ℤ) * a.scale,
            gridOps img a avg ++
            [DrawOp.line ((img.width : ℤ) * a.scale - a.offset_x, a.offset_y)
               ((img.width : ℤ) * a.scale - a.offset_x,
                (img.height : ℤ) * a.scale - a.offset_y)
               (tileColor a avg (rc.1 : ℤ) (rc.2 : ℤ)),
             DrawOp.line (a.offset_x, (img.height : ℤ) * a.scale - a.offset_y)
               ((img.width : ℤ) * a.scale - a.offset_x,
                (img.height : ℤ) * a.scale - a.offset_y)
               (tileColor a avg (rc.1 : ℤ) (rc.2 : ℤ))]⟩
      else
        Except.ok ⟨(img.width : ℤ) * a.scale, (img.height : ℤ) * a.scale,
          gridOps img a avg⟩ := by
  simp only [label_sprite_sheet]
  rw [if_neg (show ¬((img.width : ℤ) * a.scale ≤ 0 ∨ (img.height : ℤ) * a.scale ≤ 0)
      by omega), if_neg hd1, if_neg hd2]
  rw [foldl_loopStep_fst, foldl_loopStep_snd]
  cases hB : a.hairline with
  | false => simp [gridOps]
  | true =>
    cases hlast : (gridCoords (rowsOf img a).toNat (colsOf img a).toNat).getLast? with
    | none => simp [hlast]
    | some rc => simp [hlast, gridOps]

/-- Extraction of drawn indices distributes over concatenation. -/
lemma textIndices_append (l₁ l₂ : List DrawOp) :
    textIndices (l₁ ++ l₂) = textIndices l₁ ++ textIndices l₂ := by
  induction l₁ with
  | nil => rfl
  | cons op l ih => cases op <;> simp [textIndices, ih]

/-- Each tile's drawing calls label exactly the index `row * cols + col`. -/
lemma textIndices_tileOps (a : LabelArgs) (sw sh cols : ℤ) (avg : ℤ → ℤ → RGB)
    (row col : ℤ) :
    textIndices (tileOps a sw sh cols avg row col) = [row * cols + col] := by
  unfold tileOps
  cases hB : a.hairline <;> simp [textIndices]

/-- The indices labeled along one grid row. -/
lemma textIndices_row (a : LabelArgs) (sw sh cols : ℤ) (avg : ℤ → ℤ → RGB)
    (rI : ℤ) (lst : List ℕ) :
    textIndices (lst.flatMap fun col => tileOps a sw sh cols avg rI (col : ℤ)) =
      lst.map fun (col : ℕ) => rI * cols + (col : ℤ) := by
  induction lst with
  | nil => rfl
  | cons c cs ih =>
    simp only [List.flatMap_cons, List.map_cons, textIndices_append,
      textIndices_tileOps, ih]
    rfl

/-- Over the whole grid, the labeled indices are `0, 1, …, rows·cols − 1` in
row-major order (the passed `cols` agrees with the grid width whenever there
is at least one column). -/
lemma textIndices_grid (a : LabelArgs) (sw sh : ℤ) (avg : ℤ → ℤ → RGB) :
    ∀ (r c : ℕ) (cols : ℤ), (c = 0 ∨ cols = (c : ℤ)) →
      textIndices ((gridCoords r c).flatMap fun rc =>
          tileOps a sw sh cols avg (rc.1 : ℤ) (rc.2 : ℤ)) =
        (List.range (r * c)).map Int.ofNat := by
  intro r
  induction r with
  | zero => intro c cols _; simp [gridCoords, textIndices]
  | succ r ih =>
    intro c cols h
    rcases h with hc | hcols
    · subst hc
      simp [gridCoords_zero_cols, textIndices]
    · rw [gridCoords_succ, List.flatMap_append, textIndices_append,
        ih c cols (Or.inr hcols)]
      have hrow : ((List.range c).map fun col => (r, col)).flatMap
          (fun rc => tileOps a sw sh cols avg (rc.1 : ℤ) (rc.2 : ℤ)) =
          (List.range c).flatMap fun col => tileOps a sw sh cols avg (r : ℤ) (col : ℤ) := by
        rw [List.flatMap_map]
      rw [hrow, textIndices_row]
      rw [show (r + 1) * c = r * c + c from by ring, List.range_add,
        List.map_append, List.map_map]
      congr 1
      apply List.map_congr_left
      intro x hx
      subst hcols
      simp only [Function.comp_apply, Int.ofNat_eq_natCast]
      push_cast
      try ring

/-- First drawn call of a run without hairlines and with at least one tile:
the index-0 label at inset `(5·scale, 5·scale)` from `(offset_x, offset_y)`. -/
lemma gridOps_head (img : SheetImage) (a : LabelArgs) (avg : ℤ → ℤ → RGB)
    (r c : ℕ) (hB : a.hairline = false) (hr : (rowsOf img a).toNat = r + 1)
    (hc : (colsOf img a).toNat = c + 1) :
    (gridOps img a avg).head? =
      some (DrawOp.text (a.offset_x + 5 * a.scale, a.offset_y + 5 * a.scale) 0
        (tileColor a avg 0 0)) := by
  unfold gridOps
  rw [hr, hc]
  unfold gridCoords
  simp only [List.range_succ_eq_map, List.flatMap_cons, List.map_cons,
    List.flatMap_append]
  simp [tileOps, hB, tileX, tileY]

/-- C2: whenever a labeler run saves an output, the grid size is given by the
floor-division formulas and the text calls label the tiles `0, 1, …,
rows·cols − 1` in row-major issue order; concretely, a 64×64 sheet at
`tile_width = tile_height = 16, scale = 2, padding = offset = 0` gets exactly
16 labels, indices 0–15, rows outer and columns inner. -/
theorem labeler_grid_indices :
    (∀ (img : SheetImage) (a : LabelArgs) (avg : ℤ → ℤ → RGB) (out : LabelOutput),
      label_sprite_sheet img a avg = Except.ok out →
      colsOf img a = Int.fdiv ((img.width : ℤ) * a.scale - 2 * a.offset_x)
        ((a.tile_width + a.padding) * a.scale) ∧
      rowsOf img a = Int.fdiv ((img.height : ℤ) * a.scale - 2 * a.offset_y)
        ((a.tile_height + a.padding) * a.scale) ∧
      textIndices out.ops =
        (List.range ((rowsOf img a).toNat * (colsOf img a).toNat)).map Int.ofNat) ∧
    label_sprite_sheet ⟨64, 64⟩ ⟨16, 16, 2, 0, 0, 0, false⟩ (fun _ _ => (0, 0, 0)) =
      Except.ok ⟨128, 128, c2ops⟩ := by
  constructor
  · intro img a avg out hok
    refine ⟨rfl, rfl, ?_⟩
    have hcases : (colsOf img a).toNat = 0 ∨ colsOf img a = ((colsOf img a).toNat : ℤ) := by
      rcases le_or_lt 0 (colsOf img a) with h | h
      · exact Or.inr (Int.toNat_of_nonneg h).symm
      · exact Or.inl (Int.toNat_of_nonpos h.le)
    have hgrid := textIndices_grid a ((img.width : ℤ) * a.scale)
      ((img.height : ℤ) * a.scale) avg (rowsOf img a).toNat (colsOf img a).toNat
      (colsOf img a) hcases
    by_cases hval : (img.width : ℤ) * a.scale ≤ 0 ∨ (img.height : ℤ) * a.scale ≤ 0
    · exfalso
      simp only [label_sprite_sheet] at hok
      rw [if_pos hval] at hok
      exact Except.noConfusion hok
    by_cases hd1 : (a.tile_width + a.padding) * a.scale = 0
    · exfalso
      simp only [label_sprite_sheet] at hok
      rw [if_neg hval, if_pos hd1] at hok
      exact Except.noConfusion hok
    by_cases hd2 : (a.tile_height + a.padding) * a.scale = 0
    · exfalso
      simp only [label_sprite_sheet] at hok
      rw [if_neg hval, if_neg hd1, if_pos hd2] at hok
      exact Except.noConfusion hok
    push_neg at hval
    rw [label_spec img a avg hval.1 hval.2 hd1 hd2] at hok
    cases hB : a.hairline with
    | false =>
      rw [hB] at hok
      simp only [Bool.false_eq_true, if_false] at hok
      injection hok with h
      subst h
      simpa [gridOps] using hgrid
    | true =>
      rw [hB] at hok
      simp only [if_true] at hok
      cases hlast : (gridCoords (rowsOf img a).toNat (colsOf img a).toNat).getLast? with
      | none =>
        rw [hlast] at hok
        exact Except.noConfusion hok
      | some rc =>
        rw [hlast] at hok
        injection hok with h
        subst h
        rw [show (⟨(img.width : ℤ) * a.scale, (img.height : ℤ) * a.scale,
          gridOps img a avg ++ _⟩ : LabelOutput).ops = gridOps img a avg ++ _ from rfl]
        rw [textIndices_append]
        simp only [textIndices, List.append_nil]
        simpa [gridOps] using hgrid
  · rfl

/-- Witness for the general part of `labeler_grid_indices` at the concrete
64×64 run. -/
theorem labeler_grid_indices_witness :
    colsOf ⟨64, 64⟩ ⟨16, 16, 2, 0, 0, 0, false⟩ =
      Int.fdiv (((⟨64, 64⟩ : SheetImage).width : ℤ) *
          (⟨16, 16, 2, 0, 0, 0, false⟩ : LabelArgs).scale -
          2 * (⟨16, 16, 2, 0, 0, 0, false⟩ : LabelArgs).offset_x)
        (((⟨16, 16, 2, 0, 0, 0, false⟩ : LabelArgs).tile_width +
          (⟨16, 16, 2, 0, 0, 0, false⟩ : LabelArgs).padding) *
          (⟨16, 16, 2, 0, 0, 0, false⟩ : LabelArgs).scale) ∧
    rowsOf ⟨64, 64⟩ ⟨16, 16, 2, 0, 0, 0, false⟩ =
      Int.fdiv (((⟨64, 64⟩ : SheetImage).height : ℤ) *
          (⟨16, 16, 2, 0, 0, 0, false⟩ : LabelArgs).scale -
          2 * (⟨16, 16, 2, 0, 0, 0, false⟩ : LabelArgs).offset_y)
        (((⟨16, 16, 2, 0, 0, 0, false⟩ : LabelArgs).tile_height +
          (⟨16, 16, 2, 0, 0, 0, false⟩ : LabelArgs).padding) *
          (⟨16, 16, 2, 0, 0, 0, false⟩ : LabelArgs).scale) ∧
    textIndices (⟨128, 128, c2ops⟩ : LabelOutput).ops =
      (List.range ((rowsOf ⟨64, 64⟩ ⟨16, 16, 2, 0, 0, 0, false⟩).toNat *
        (colsOf ⟨64, 64⟩ ⟨16, 16, 2, 0, 0, 0, false⟩).toNat)).map Int.ofNat :=
  labeler_grid_indices.1 ⟨64, 64⟩ ⟨16, 16, 2, 0, 0, 0, false⟩ (fun _ _ => (0, 0, 0))
    ⟨128, 128, c2ops⟩ labeler_grid_indices.2

/-- C4 counterexample: a 16×16 tile on an 8×8 sheet gives zero computed rows
and cols, and with the hairline flag set the labeler fails — the final
divider pass reads the never-assigned loop variable `contrasting_color`, so
Python raises `UnboundLocalError` and nothing is saved — contradicting the
claim that zero tiles never fail regardless of the hairline flag. -/
theorem labeler_zero_tiles_hairline_cex :
    (rowsOf ⟨8, 8⟩ ⟨16, 16, 1, 0, 0, 0, true⟩).toNat = 0 ∧
    (colsOf ⟨8, 8⟩ ⟨16, 16, 1, 0, 0, 0, true⟩).toNat = 0 ∧
    label_sprite_sheet ⟨8, 8⟩ ⟨16, 16, 1, 0, 0, 0, true⟩ avg0 =
      Except.error "UnboundLocalError" :=
  ⟨rfl, rfl, rfl⟩

/-- C4 (amended): in a run that reaches the tile loop (positive scaled size
and both grid divisors nonzero) with zero computed rows or cols, the labeler
saves the scaled-but-unlabeled image (no drawing calls at all) when the
hairline flag is NOT set; when the flag IS set, it instead crashes with
`UnboundLocalError` on the unbound `contrasting_color` and saves nothing. -/
theorem labeler_zero_tiles_amended (img : SheetImage) (a : LabelArgs)
    (avg : ℤ → ℤ → RGB)
    (hsw : 0 < (img.width : ℤ) * a.scale) (hsh : 0 < (img.height : ℤ) * a.scale)
    (hd1 : (a.tile_width + a.padding) * a.scale ≠ 0)
    (hd2 : (a.tile_height + a.padding) * a.scale ≠ 0)
    (hz : (rowsOf img a).toNat = 0 ∨ (colsOf img a).toNat = 0) :
    (a.hairline = false → label_sprite_sheet img a avg =
      Except.ok ⟨(img.width : ℤ) * a.scale, (img.height : ℤ) * a.scale, []⟩) ∧
    (a.hairline = true → label_sprite_sheet img a avg =
      Except.error "UnboundLocalError") := by
  have hnil : gridCoords (rowsOf img a).toNat (colsOf img a).toNat = [] := by
    rcases hz with h | h
    · rw [h]
      rfl
    · rw [h]
      exact gridCoords_zero_cols _
  rw [label_spec img a avg hsw hsh hd1 hd2]
  constructor <;> intro hB <;> rw [hB] <;> simp [hnil, gridOps]

/-- Witness for `labeler_zero_tiles_amended` on an 8×8 sheet with 16×16
tiles, hairline off. -/
theorem labeler_zero_tiles_amended_witness :
    ((⟨16, 16, 1, 0, 0, 0, false⟩ : LabelArgs).hairline = false →
      label_sprite_sheet ⟨8, 8⟩ ⟨16, 16, 1, 0, 0, 0, false⟩ avg0 =
        Except.ok ⟨8, 8, []⟩) ∧
    ((⟨16, 16, 1, 0, 0, 0, false⟩ : LabelArgs).hairline = true →
      label_sprite_sheet ⟨8, 8⟩ ⟨16, 16, 1, 0, 0, 0, false⟩ avg0 =
        Except.error "UnboundLocalError") :=
  labeler_zero_tiles_amended ⟨8, 8⟩ ⟨16, 16, 1, 0, 0, 0, false⟩ avg0
    (by decide) (by decide) (by decide) (by decide) (Or.inl rfl)

/-- C7: with hairlines on and at least one tile, the run is the tile loop's
calls followed by exactly two closing lines — the vertical right edge and the
horizontal bottom edge — both in the contrasting color of the last processed
tile `(rows−1, cols−1)`; with hairlines off, no line call is ever issued. -/
theorem labeler_closing_lines :
    (∀ (img : SheetImage) (a : LabelArgs) (avg : ℤ → ℤ → RGB) (r c : ℕ),
      0 < (img.width : ℤ) * a.scale → 0 < (img.height : ℤ) * a.scale →
      (a.tile_width + a.padding) * a.scale ≠ 0 → a.hairline = true →
      (rowsOf img a).toNat = r + 1 → (colsOf img a).toNat = c + 1 →
      label_sprite_sheet img a avg = Except.ok
        ⟨(img.width : ℤ) * a.scale, (img.height : ℤ) * a.scale,
         gridOps img a avg ++
         [DrawOp.line ((img.width : ℤ) * a.scale - a.offset_x, a.offset_y)
            ((img.width : ℤ) * a.scale - a.offset_x,
             (img.height : ℤ) * a.scale - a.offset_y)
            (tileColor a avg (r : ℤ) (c : ℤ)),
          DrawOp.line (a.offset_x, (img.height : ℤ) * a.scale - a.offset_y)
            ((img.width : ℤ) * a.scale - a.offset_x,
             (img.height : ℤ) * a.scale - a.offset_y)
            (tileColor a avg (r : ℤ) (c : ℤ))]⟩) ∧
    (∀ (img : SheetImage) (a : LabelArgs) (avg : ℤ → ℤ → RGB) (out : LabelOutput)
      (p q : ℤ × ℤ) (col : String), a.hairline = false →
      label_sprite_sheet img a avg = Except.ok out →
      DrawOp.line p q col ∉ out.ops) := by
  constructor
  · intro img a avg r c hsw hsh hd hB hr hc
    have hd2 : (a.tile_height + a.padding) * a.scale ≠ 0 := by
      intro h0
      have hz : rowsOf img a = 0 := by
        unfold rowsOf
        rw [h0]
        exact Int.fdiv_zero _
      rw [hz] at hr
      simp at hr
    rw [label_spec img a avg hsw hsh hd hd2, hB]
    simp only [if_true]
    rw [hr, hc, gridCoords_getLast]
  · intro img a avg out p q col hB hok hmem
    by_cases hval : (img.width : ℤ) * a.scale ≤ 0 ∨ (img.height : ℤ) * a.scale ≤ 0
    · simp only [label_sprite_sheet] at hok
      rw [if_pos hval] at hok
      exact Except.noConfusion hok
    by_cases hd1 : (a.tile_width + a.padding) * a.scale = 0
    · simp only [label_sprite_sheet] at hok
      rw [if_neg hval, if_pos hd1] at hok
      exact Except.noConfusion hok
    by_cases hd2 : (a.tile_height + a.padding) * a.scale = 0
    · simp only [label_sprite_sheet] at hok
      rw [if_neg hval, if_neg hd1, if_pos hd2] at hok
      exact Except.noConfusion hok
    push_neg at hval
    rw [label_spec img a avg hval.1 hval.2 hd1 hd2, hB] at hok
    simp only [Bool.false_eq_true, if_false] at hok
    injection hok with h
    subst h
    rw [show (⟨(img.width : ℤ) * a.scale, (img.height : ℤ) * a.scale,
      gridOps img a avg⟩ : LabelOutput).ops = gridOps img a avg from rfl] at hmem
    unfold gridOps at hmem
    rcases List.mem_flatMap.mp hmem with ⟨rc, _, hop⟩
    simp [tileOps, hB] at hop

/-- Witness for the closing-lines part of `labeler_closing_lines` on a 32×32
sheet with 16×16 tiles at scale 1, hairline on (a 2×2 grid, last tile
`(1,1)`). -/
theorem labeler_closing_lines_witness :
    label_sprite_sheet ⟨32, 32⟩ ⟨16, 16, 1, 0, 0, 0, true⟩ avg0 = Except.ok
      ⟨((⟨32, 32⟩ : SheetImage).width : ℤ) * (⟨16, 16, 1, 0, 0, 0, true⟩ : LabelArgs).scale,
       ((⟨32, 32⟩ : SheetImage).height : ℤ) * (⟨16, 16, 1, 0, 0, 0, true⟩ : LabelArgs).scale,
       gridOps ⟨32, 32⟩ ⟨16, 16, 1, 0, 0, 0, true⟩ avg0 ++
       [DrawOp.line (((⟨32, 32⟩ : SheetImage).width : ℤ) *
            (⟨16, 16, 1, 0, 0, 0, true⟩ : LabelArgs).scale -
            (⟨16, 16, 1, 0, 0, 0, true⟩ : LabelArgs).offset_x,
          (⟨16, 16, 1, 0, 0, 0, true⟩ : LabelArgs).offset_y)
          (((⟨32, 32⟩ : SheetImage).width : ℤ) *
            (⟨16, 16, 1, 0, 0, 0, true⟩ : LabelArgs).scale -
            (⟨16, 16, 1, 0, 0, 0, true⟩ : LabelArgs).offset_x,
           ((⟨32, 32⟩ : SheetImage).height : ℤ) *
            (⟨16, 16, 1, 0, 0, 0, true⟩ : LabelArgs).scale -
            (⟨16, 16, 1, 0, 0, 0, true⟩ : LabelArgs).offset_y)
          (tileColor ⟨16, 16, 1, 0, 0, 0, true⟩ avg0 ((1 : ℕ) : ℤ) ((1 : ℕ) : ℤ)),
        DrawOp.line ((⟨16, 16, 1, 0, 0, 0, true⟩ : LabelArgs).offset_x,
          ((⟨32, 32⟩ : SheetImage).height : ℤ) *
            (⟨16, 16, 1, 0, 0, 0, true⟩ : LabelArgs).scale -
            (⟨16, 16, 1, 0, 0, 0, true⟩ : LabelArgs).offset_y)
          (((⟨32, 32⟩ : SheetImage).width : ℤ) *
            (⟨16, 16, 1, 0, 0, 0, true⟩ : LabelArgs).scale -
            (⟨16, 16, 1, 0, 0, 0, true⟩ : LabelArgs).offset_x,
           ((⟨32, 32⟩ : SheetImage).height : ℤ) *
            (⟨16, 16, 1, 0, 0, 0, true⟩ : LabelArgs).scale -
            (⟨16, 16, 1, 0, 0, 0, true⟩ : LabelArgs).offset_y)
          (tileColor ⟨16, 16, 1, 0, 0, 0, true⟩ avg0 ((1 : ℕ) : ℤ) ((1 : ℕ) : ℤ))]⟩ :=
  labeler_closing_lines.1 ⟨32, 32⟩ ⟨16, 16, 1, 0, 0, 0, true⟩ avg0 1 1
    (by decide) (by decide) (by decide) rfl rfl rfl

/-- C8 counterexample: with `offset_x = offset_y = 3` and `scale = 2`, the
first tile's top-left corner is at `(3, 3)` output pixels — the code adds the
offset after scaling tile strides, so the offset is an output-pixel margin —
not at `(offset_x·scale, offset_y·scale) = (6, 6)` as claimed; the first
label lands at `(3 + 5·2, 3 + 5·2) = (13, 13)`, not `(16, 16)`. -/
theorem labeler_offset_cex :
    tileX ⟨8, 8, 2, 0, 3, 3, false⟩ 0 = 3 ∧
    tileY ⟨8, 8, 2, 0, 3, 3, false⟩ 0 = 3 ∧
    (⟨8, 8, 2, 0, 3, 3, false⟩ : LabelArgs).offset_x *
      (⟨8, 8, 2, 0, 3, 3, false⟩ : LabelArgs).scale = 6 ∧
    tileX ⟨8, 8, 2, 0, 3, 3, false⟩ 0 ≠
      (⟨8, 8, 2, 0, 3, 3, false⟩ : LabelArgs).offset_x *
      (⟨8, 8, 2, 0, 3, 3, false⟩ : LabelArgs).scale ∧
    (label_sprite_sheet ⟨32, 32⟩ ⟨8, 8, 2, 0, 3, 3, false⟩ avg0).map
        (fun out => out.ops.head?) =
      Except.ok (some (DrawOp.text (13, 13) 0 "white")) :=
  ⟨rfl, rfl, rfl, by decide, rfl⟩

/-- C8 (amended): the offsets are output-pixel (post-scale) margins: the
first tile's top-left corner is at `(offset_x, offset_y)` output pixels, and
in any run with at least one tile (hairline off) the first drawing call is
the index-0 label at inset `(5·scale, 5·scale)` from that corner. -/
theorem labeler_offset_amended :
    (∀ a : LabelArgs, tileX a 0 = a.offset_x ∧ tileY a 0 = a.offset_y) ∧
    (∀ (img : SheetImage) (a : LabelArgs) (avg : ℤ → ℤ → RGB) (r c : ℕ),
      0 < (img.width : ℤ) * a.scale → 0 < (img.height : ℤ) * a.scale →
      (a.tile_width + a.padding) * a.scale ≠ 0 → a.hairline = false →
      (rowsOf img a).toNat = r + 1 → (colsOf img a).toNat = c + 1 →
      ∃ out, label_sprite_sheet img a avg = Except.ok out ∧
        out.ops.head? = some (DrawOp.text (a.offset_x + 5 * a.scale,
          a.offset_y + 5 * a.scale) 0 (tileColor a avg 0 0))) := by
  constructor
  · intro a
    constructor <;> simp [tileX, tileY]
  · intro img a avg r c hsw hsh hd hB hr hc
    have hd2 : (a.tile_height + a.padding) * a.scale ≠ 0 := by
      intro h0
      have hz : rowsOf img a = 0 := by
        unfold rowsOf
        rw [h0]
        exact Int.fdiv_zero _
      rw [hz] at hr
      simp at hr
    refine ⟨⟨(img.width : ℤ) * a.scale, (img.height : ℤ) * a.scale,
      gridOps img a avg⟩, ?_, ?_⟩
    · rw [label_spec img a avg hsw hsh hd hd2, hB]
      simp
    · exact gridOps_head img a avg r c hB hr hc

/-- Witness for the run part of `labeler_offset_amended` on a 32×32 sheet
with 8×8 tiles, scale 2, offsets 3 (a 3×3 grid). -/
theorem labeler_offset_amended_witness :
    ∃ out, label_sprite_sheet ⟨32, 32⟩ ⟨8, 8, 2, 0, 3, 3, false⟩ avg0 =
        Except.ok out ∧
      out.ops.head? = some (DrawOp.text
        ((⟨8, 8, 2, 0, 3, 3, false⟩ : LabelArgs).offset_x +
          5 * (⟨8, 8, 2, 0, 3, 3, false⟩ : LabelArgs).scale,
         (⟨8, 8, 2, 0, 3, 3, false⟩ : LabelArgs).offset_y +
          5 * (⟨8, 8, 2, 0, 3, 3, false⟩ : LabelArgs).scale) 0
        (tileColor ⟨8, 8, 2, 0, 3, 3, false⟩ avg0 0 0)) :=
  labeler_offset_amended.2 ⟨32, 32⟩ ⟨8, 8, 2, 0, 3, 3, false⟩ avg0 2 2
    (by decide) (by decide) (by decide) rfl rfl rfl

/-- C9: the labeler is deterministic — it is a pure function of the input
image, the parsed arguments, and the library's tile-averaging behavior, so
two runs on equal inputs produce equal outputs (the embedding has no other
state to depend on). -/
theorem labeler_deterministic (img₁ img₂ : SheetImage) (a₁ a₂ : LabelArgs)
    (avg₁ avg₂ : ℤ → ℤ → RGB) (h₁ : img₁ = img₂) (h₂ : a₁ = a₂)
    (h₃ : avg₁ = avg₂) :
    label_sprite_sheet img₁ a₁ avg₁ = label_sprite_sheet img₂ a₂ avg₂ := by
  subst h₁
  subst h₂
  subst h₃
  rfl

/-- Witness for `labeler_deterministic` at a concrete repeated run. -/
theorem labeler_deterministic_witness :
    label_sprite_sheet ⟨64, 64⟩ ⟨16, 16, 2, 0, 0, 0, false⟩ avg0 =
      label_sprite_sheet ⟨64, 64⟩ ⟨16, 16, 2, 0, 0, 0, false⟩ avg0 :=
  labeler_deterministic ⟨64, 64⟩ ⟨64, 64⟩ ⟨16, 16, 2, 0, 0, 0, false⟩
    ⟨16, 16, 2, 0, 0, 0, false⟩ avg0 avg0 rfl rfl rfl

/-- C10 counterexample: at `scale = 0` with positive 16×16 tiles — one of the
claim's own example inputs, where `(tile_width + padding) * scale = 0` — the
run fails with `ValueError`, not `ZeroDivisionError`: line 37's library
resize rejects the zero-size target `(0, 0)` before the grid computation is
ever reached. -/
theorem labeler_div_zero_scale_cex :
    (0 : ℤ) < (⟨16, 16, 0, 0, 0, 0, false⟩ : LabelArgs).tile_width ∧
    (0 : ℤ) < (⟨16, 16, 0, 0, 0, 0, false⟩ : LabelArgs).tile_height ∧
    ((⟨16, 16, 0, 0, 0, 0, false⟩ : LabelArgs).tile_width +
      (⟨16, 16, 0, 0, 0, 0, false⟩ : LabelArgs).padding) *
      (⟨16, 16, 0, 0, 0, 0, false⟩ : LabelArgs).scale = 0 ∧
    label_sprite_sheet ⟨64, 64⟩ ⟨16, 16, 0, 0, 0, 0, false⟩ avg0 =
      Except.error "ValueError" ∧
    label_sprite_sheet ⟨64, 64⟩ ⟨16, 16, 0, 0, 0, 0, false⟩ avg0 ≠
      Except.error "ZeroDivisionError" := by
  refine ⟨by decide, by decide, by decide, rfl, ?_⟩
  intro h
  have h2 : (Except.error "ValueError" : Except String LabelOutput) =
      Except.error "ZeroDivisionError" := by
    calc (Except.error "ValueError" : Except String LabelOutput)
        = label_sprite_sheet ⟨64, 64⟩ ⟨16, 16, 0, 0, 0, 0, false⟩ avg0 := rfl
      _ = Except.error "ZeroDivisionError" := h
  injection h2 with hs
  exact absurd hs (by decide)

/-- C10 (amended): on a real (positive-size) image with positive scale, a
zero grid divisor `(tile_width + padding) * scale = 0` — e.g. `padding =
-tile_width` — makes the grid-size computation raise `ZeroDivisionError`
before anything is drawn, and no output is saved, even with positive tile
dimensions.  With `scale = 0` the run also fails without output, but earlier
and differently: the library resize rejects the zero-size target with
`ValueError` before the division is reached. -/
theorem labeler_division_by_zero :
    (∀ (img : SheetImage) (a : LabelArgs) (avg : ℤ → ℤ → RGB),
      0 < img.width → 0 < img.height → 0 < a.scale →
      0 < a.tile_width → 0 < a.tile_height →
      (a.tile_width + a.padding) * a.scale = 0 →
      label_sprite_sheet img a avg = Except.error "ZeroDivisionError") ∧
    (∀ (img : SheetImage) (a : LabelArgs) (avg : ℤ → ℤ → RGB),
      a.scale = 0 → label_sprite_sheet img a avg = Except.error "ValueError") := by
  constructor
  · intro img a avg hw hh hs _htw _hth hd
    have hsw : 0 < (img.width : ℤ) * a.scale :=
      mul_pos (by exact_mod_cast hw) hs
    have hsh : 0 < (img.height : ℤ) * a.scale :=
      mul_pos (by exact_mod_cast hh) hs
    simp only [label_sprite_sheet]
    rw [if_neg (show ¬((img.width : ℤ) * a.scale ≤ 0 ∨
        (img.height : ℤ) * a.scale ≤ 0) by omega), if_pos hd]
  · intro img a avg hs
    simp only [label_sprite_sheet]
    rw [if_pos (Or.inl (show (img.width : ℤ) * a.scale ≤ 0 by rw [hs]; simp))]

/-- Witness for `labeler_division_by_zero`: `padding = -16, scale = 1` on a
64×64 sheet divides by zero; `scale = 0` on the same sheet fails at the
resize instead. -/
theorem labeler_division_by_zero_witness :
    label_sprite_sheet ⟨64, 64⟩ ⟨16, 16, 1, -16, 0, 0, false⟩ avg0 =
      Except.error "ZeroDivisionError" ∧
    label_sprite_sheet ⟨64, 64⟩ ⟨16, 16, 0, 0, 0, 0, false⟩ avg0 =
      Except.error "ValueError" :=
  ⟨labeler_division_by_zero.1 ⟨64, 64⟩ ⟨16, 16, 1, -16, 0, 0, false⟩ avg0
      (by decide) (by decide) (by decide) (by decide) (by decide) (by decide),
   labeler_division_by_zero.2 ⟨64, 64⟩ ⟨16, 16, 0, 0, 0, 0, false⟩ avg0 rfl⟩
